import Mathlib

/-!
Shallow embedding of the control-plane core of the tidb-operator repository:
the PD client resolver (`pkg/controller/pd_control.go`), the guaranteed
optimistic update engine, the event router, the typed control errors and the
identity/ownership model (`pkg/controller` utilities and the `v1alpha1` type
registry).  Pure Go functions become Lean functions; the external collaborators
(PD control interface, persistent store, informer) become explicit parameters:
a client handle is identified by the argument tuple it was requested with, a
health probe is a Boolean-valued function of that tuple, and the store is a
per-attempt oracle for get/update results.
-/

namespace TidbOperator

/-- Embeds `v1alpha1.PDMember` as used by the resolver: a known peer member of the
placement service, `{Name, ClientURL}`. -/
structure PDMember where
  name : String
  clientURL : String
deriving DecidableEq, Repr

/-- One entry of `Status.PDMS`: a named PD micro-service together with its
member endpoints (plain address strings in the source). -/
structure PDMSStatus where
  name : String
  members : List String
deriving DecidableEq, Repr

/-- Embeds `v1alpha1.TidbClusterRef` (`Spec.Cluster`): reference to the parent
cluster for heterogeneous deployments. -/
structure TidbClusterRef where
  ns : String
  name : String
  clusterDomain : String
deriving DecidableEq, Repr

/-- The projection of `v1alpha1.TidbCluster` that `pd_control.go` reads.
`tlsEnabled` is the result of the method `IsTLSClusterEnabled()` and
`withoutLocalPD` the result of `WithoutLocalPD()`; both methods live outside
the sampled sources, so they are carried as descriptor fields. -/
structure TidbCluster where
  ns : String
  name : String
  clusterRef : Option TidbClusterRef
  clusterDomain : String
  acrossK8s : Bool
  tlsEnabled : Bool
  withoutLocalPD : Bool
  peerMembers : List PDMember
  pdms : List PDMSStatus
deriving DecidableEq, Repr

/-- Modelled from the spec: the method `TidbCluster.Heterogeneous()` is not
among the sampled sources; the spec describes a heterogeneous cluster as one
that carries a parent-cluster reference and borrows that cluster's control
plane. -/
def TidbCluster.heterogeneous (tc : TidbCluster) : Bool :=
  tc.clusterRef.isSome

/-- The argument tuple of a `pdapi.PDControlInterface.GetPDClient` call.  The
PD control interface returns a (cached) client determined by these arguments,
so the tuple itself stands for the returned client handle. -/
structure PDClientArgs where
  ns : String
  name : String
  tls : Bool
  certNs : Option String
  certName : Option String
  clusterDomain : Option String
  headless : Option Bool
  specifyURL : Option String
  specifyName : Option String
deriving DecidableEq, Repr

/-- The argument tuple of a `pdapi.PDControlInterface.GetPDMSClient` call,
standing for the returned PDMS client handle. -/
structure PDMSClientArgs where
  ns : String
  name : String
  serviceName : String
  tls : Bool
  certNs : Option String
  certName : Option String
  clusterDomain : Option String
  headless : Option Bool
  specifyURL : Option String
  specifyName : Option String
deriving DecidableEq, Repr

/-- Embeds `getPDClientFromService`: build the service-level PD client key.  A
heterogeneous cluster without local PD borrows the parent cluster's
namespace/name/domain and carries the local TLS certificate source and
across-k8s routing hint; otherwise the local namespace/name/domain are used. -/
def getPDClientFromService (tc : TidbCluster) : PDClientArgs :=
  if tc.heterogeneous && tc.withoutLocalPD then
    let c := tc.clusterRef.getD ⟨"", "", ""⟩
    { ns := c.ns, name := c.name, tls := tc.tlsEnabled,
      certNs := some tc.ns, certName := some tc.name,
      clusterDomain := some c.clusterDomain,
      headless := some tc.acrossK8s,
      specifyURL := none, specifyName := none }
  else
    { ns := tc.ns, name := tc.name, tls := tc.tlsEnabled,
      certNs := none, certName := none,
      clusterDomain := some tc.clusterDomain,
      headless := none,
      specifyURL := none, specifyName := none }

/-- The peer-pinned PD client key built inside `GetPDClient`'s failover loop:
local namespace/name/TLS plus `SpecifyClient(member.ClientURL, member.Name)`. -/
def pdPeerClientArgs (tc : TidbCluster) (m : PDMember) : PDClientArgs :=
  { ns := tc.ns, name := tc.name, tls := tc.tlsEnabled,
    certNs := none, certName := none, clusterDomain := none,
    headless := none,
    specifyURL := some m.clientURL, specifyName := some m.name }

/-- The failover loop of `GetPDClient`: probe each peer member in stored
order and return the first healthy pinned client.  `health c = true` models
`c.GetHealth()` returning a nil error. -/
def findHealthyPeer (health : PDClientArgs → Bool) (tc : TidbCluster) :
    List PDMember → Option PDClientArgs
  | [] => none
  | m :: rest =>
    if health (pdPeerClientArgs tc m) then some (pdPeerClientArgs tc m)
    else findHealthyPeer health tc rest

/-- The sequence of peer members whose pinned client is health-probed by
`GetPDClient`'s failover loop, in probe order: every member before the first
healthy one, then the healthy one itself (or the whole list when none is
healthy). -/
def probedPeers (health : PDClientArgs → Bool) (tc : TidbCluster) :
    List PDMember → List PDMember
  | [] => []
  | m :: rest =>
    if health (pdPeerClientArgs tc m) then [m]
    else m :: probedPeers health tc rest

/-- Embeds `GetPDClient`: return the service-level client when there are no peer
members or when its probe succeeds; otherwise fail over to the first healthy
peer-pinned client; if every probe fails, return the service-level client. -/
def GetPDClient (health : PDClientArgs → Bool) (tc : TidbCluster) : PDClientArgs :=
  if tc.peerMembers.isEmpty then getPDClientFromService tc
  else if health (getPDClientFromService tc) then getPDClientFromService tc
  else
    match findHealthyPeer health tc tc.peerMembers with
    | some c => c
    | none => getPDClientFromService tc

/-- Embeds `getPDMSClientFromService`: service-level PDMS client key, with the same
heterogeneous-cluster branching as `getPDClientFromService`. -/
def getPDMSClientFromService (tc : TidbCluster) (serviceName : String) : PDMSClientArgs :=
  if tc.heterogeneous && tc.withoutLocalPD then
    let c := tc.clusterRef.getD ⟨"", "", ""⟩
    { ns := c.ns, name := c.name, serviceName := serviceName, tls := tc.tlsEnabled,
      certNs := some tc.ns, certName := some tc.name,
      clusterDomain := some c.clusterDomain,
      headless := some tc.acrossK8s,
      specifyURL := none, specifyName := none }
  else
    { ns := tc.ns, name := tc.name, serviceName := serviceName, tls := tc.tlsEnabled,
      certNs := none, certName := none,
      clusterDomain := some tc.clusterDomain,
      headless := none,
      specifyURL := none, specifyName := none }

/-- The member-pinned PDMS client key built inside `GetPDMSClient`'s loop:
`SpecifyClient(member, member)` uses the member string for both URL and name. -/
def pdmsPeerClientArgs (tc : TidbCluster) (serviceName : String) (m : String) :
    PDMSClientArgs :=
  { ns := tc.ns, name := tc.name, serviceName := serviceName, tls := tc.tlsEnabled,
    certNs := none, certName := none, clusterDomain := none,
    headless := none,
    specifyURL := some m, specifyName := some m }

/-- Inner loop of `GetPDMSClient`: probe the members of one matching
sub-service entry in stored order. -/
def findHealthyPDMSMember (health : PDMSClientArgs → Bool) (tc : TidbCluster)
    (serviceName : String) : List String → Option PDMSClientArgs
  | [] => none
  | m :: rest =>
    if health (pdmsPeerClientArgs tc serviceName m) then
      some (pdmsPeerClientArgs tc serviceName m)
    else findHealthyPDMSMember health tc serviceName rest

/-- Outer loop of `GetPDMSClient`: skip `Status.PDMS` entries whose name is
not the requested sub-service, probe the members of matching entries. -/
def findHealthyPDMSPeer (health : PDMSClientArgs → Bool) (tc : TidbCluster)
    (serviceName : String) : List PDMSStatus → Option PDMSClientArgs
  | [] => none
  | s :: rest =>
    if s.name = serviceName then
      match findHealthyPDMSMember health tc serviceName s.members with
      | some c => some c
      | none => findHealthyPDMSPeer health tc serviceName rest
    else findHealthyPDMSPeer health tc serviceName rest

/-- Embeds `GetPDMSClient`: probe the service-level PDMS client first; on failure
probe the members of the named sub-service in stored order; return `none`
(Go `nil`) when every probe fails. -/
def GetPDMSClient (health : PDMSClientArgs → Bool) (tc : TidbCluster)
    (serviceName : String) : Option PDMSClientArgs :=
  if health (getPDMSClientFromService tc serviceName) then
    some (getPDMSClientFromService tc serviceName)
  else findHealthyPDMSPeer health tc serviceName tc.pdms

/-- Go error values as the guaranteed update engine classifies them:
a concurrent-modification conflict (recognized by `errors.IsConflict`),
the wait-timeout sentinel of the retry helper, or any other error. -/
inductive GoErr where
  | conflict (s : String)
  | waitTimeout
  | other (s : String)
deriving DecidableEq, Repr

/-- Embeds `apierrors.IsConflict`: recognizes the conflict error class. -/
def isConflict : GoErr → Bool
  | .conflict _ => true
  | _ => false

/-- The persistent store as a per-attempt oracle: `getR i` is the result of
the `Get` issued on attempt `i`, `updR i v` the result of `Update`-ing the
value `v` on attempt `i`. -/
structure StoreEnv (α : Type) where
  getR : Nat → Except GoErr α
  updR : Nat → α → Except GoErr (Unit : Type)

/-- Observable outcome of a `GuaranteedUpdate` call: the returned error
(`none` = success), the number of attempts (invocations of the retry
closure), and the number of `Update` calls issued to the store. -/
structure GUOutcome where
  result : Option GoErr
  attempts : Nat
  updates : Nat
deriving DecidableEq, Repr

/-- One attempt of `GuaranteedUpdate`'s retry closure: fetch the current
value, snapshot it, apply the mutation, skip the write when the mutated value
is semantically equal to the snapshot, otherwise issue the write.  Returns
the closure's error (`none` = nil) and the number of `Update` calls issued
(0 or 1). -/
def guAttempt {α : Type} [DecidableEq α] (env : StoreEnv α)
    (mutate : α → Except GoErr α) (i : Nat) : Option GoErr × Nat :=
  match env.getR i with
  | .error e => (some e, 0)
  | .ok v =>
    match mutate v with
    | .error e => (some e, 0)
    | .ok v2 =>
      if v2 = v then (none, 0)
      else
        match env.updR i v2 with
        | .error e => (some e, 1)
        | .ok _ => (none, 1)

/-- Embeds `retry.RetryOnConflict(retry.DefaultRetry, ...)` around `guAttempt`
(client-go `OnError` over `ExponentialBackoff`): run the closure up to `fuel`
times, retrying only on conflict-classified errors; when the step budget is
exhausted the last conflict error is returned in place of the wait-timeout
sentinel.  `i` counts attempts already made, `a`/`u` accumulate the attempt
and update counts, `lastErr` is the last retriable error seen. -/
def guLoop {α : Type} [DecidableEq α] (env : StoreEnv α)
    (mutate : α → Except GoErr α) :
    Nat → Nat → Nat → Nat → Option GoErr → GUOutcome
  | 0, _, a, u, lastErr => ⟨lastErr, a, u⟩
  | fuel + 1, i, a, u, _ =>
    match guAttempt env mutate i with
    | (none, w) => ⟨none, a + 1, u + w⟩
    | (some e, w) =>
      if isConflict e then guLoop env mutate fuel (i + 1) (a + 1) (u + w) (some e)
      else ⟨some e, a + 1, u + w⟩

/-- Embeds `GuaranteedUpdate`: retry the fetch/mutate/compare/update attempt under
`retry.DefaultRetry`, whose step budget is 5. -/
def GuaranteedUpdate {α : Type} [DecidableEq α] (env : StoreEnv α)
    (mutate : α → Except GoErr α) : GUOutcome :=
  guLoop env mutate 5 0 0 0 none

/-- Go error values as the typed control-error predicates see them: a
`*RequeueError`, a `*IgnoreError`, a wrapping error (one that implements
`Unwrap`), or any other leaf error. -/
inductive GoError where
  | requeueErr (s : String)
  | ignoreErr (s : String)
  | wrapped (msg : String) (inner : GoError)
  | basic (s : String)
deriving DecidableEq, Repr

/-- Embeds `IsRequeueError`: `errors.As(err, &rerr)` — matches a `*RequeueError`
anywhere along the `Unwrap` chain. -/
def IsRequeueError : GoError → Bool
  | .requeueErr _ => true
  | .wrapped _ inner => IsRequeueError inner
  | _ => false

/-- Embeds `IsIgnoreError`: a direct type assertion `err.(*IgnoreError)` — matches
only when the dynamic type of the value itself is `*IgnoreError`; it never
unwraps. -/
def IsIgnoreError : GoError → Bool
  | .ignoreErr _ => true
  | _ => false

/-- Whether a `*RequeueError` occurs anywhere along the wrap chain. -/
def containsRequeueError : GoError → Bool
  | .requeueErr _ => true
  | .wrapped _ inner => containsRequeueError inner
  | _ => false

/-- Whether a `*IgnoreError` occurs anywhere along the wrap chain. -/
def containsIgnoreError : GoError → Bool
  | .ignoreErr _ => true
  | .wrapped _ inner => containsIgnoreError inner
  | _ => false

/-- Embeds `schema.GroupVersionKind`. -/
structure GroupVersionKind where
  group : String
  version : String
  kind : String
deriving DecidableEq, Repr

/-- Embeds `GroupVersion.String()`: `version` when the group is empty, otherwise
`group "/" version`. -/
def gvString (group version : String) : String :=
  if group = "" then version else group ++ "/" ++ version

/-- Embeds `v1alpha1.SchemeGroupVersion.WithKind k` for the pingcap group
(`GroupName = "pingcap.com"`, `Version = "v1alpha1"`). -/
def pingcapKind (k : String) : GroupVersionKind :=
  ⟨"pingcap.com", "v1alpha1", k⟩

/-- Embeds `fedv1alpha1.SchemeGroupVersion.WithKind k` for the federation API group;
the exact group string is irrelevant to every claim (only the kind and the
two ownership flags are). -/
def fedKind (k : String) : GroupVersionKind :=
  ⟨"federation.pingcap.com", "v1alpha1", k⟩

def ControllerKind : GroupVersionKind := pingcapKind "TidbCluster"

def DMControllerKind : GroupVersionKind := pingcapKind "DMCluster"

def BackupControllerKind : GroupVersionKind := pingcapKind "Backup"

def CompactBackupControllerKind : GroupVersionKind := pingcapKind "CompactBackup"

def RestoreControllerKind : GroupVersionKind := pingcapKind "Restore"

def backupScheduleControllerKind : GroupVersionKind := pingcapKind "BackupSchedule"

def tidbMonitorControllerKind : GroupVersionKind := pingcapKind "TidbMonitor"

def tidbNGMonitoringKind : GroupVersionKind := pingcapKind "TidbNGMonitoring"

def tidbDashboardKind : GroupVersionKind := pingcapKind "TidbDashboard"

def FedVolumeBackupScheduleControllerKind : GroupVersionKind :=
  fedKind "VolumeBackupSchedule"

/-- Embeds `metav1.OwnerReference`; `controller` and `blockOwnerDeletion` are
`*bool` in Go, hence `Option Bool` here (`none` = nil pointer). -/
structure OwnerReference where
  apiVersion : String
  kind : String
  name : String
  uid : String
  controller : Option Bool
  blockOwnerDeletion : Option Bool
deriving DecidableEq, Repr

/-- The common body of every owner-reference constructor in
`pkg/controller`: both flags point at `true`. -/
def mkOwnerRef (gvk : GroupVersionKind) (name uid : String) : OwnerReference :=
  { apiVersion := gvString gvk.group gvk.version,
    kind := gvk.kind,
    name := name, uid := uid,
    controller := some true,
    blockOwnerDeletion := some true }

/-- Embeds `GetOwnerRef`: TidbCluster's owner reference, from the object's name and
UID. -/
def GetOwnerRef (name uid : String) : OwnerReference :=
  mkOwnerRef ControllerKind name uid

/-- Embeds `GetDMOwnerRef`. -/
def GetDMOwnerRef (name uid : String) : OwnerReference :=
  mkOwnerRef DMControllerKind name uid

/-- Embeds `GetBackupOwnerRef`. -/
def GetBackupOwnerRef (name uid : String) : OwnerReference :=
  mkOwnerRef BackupControllerKind name uid

/-- Embeds `GetCompactBackupOwnerRef`. -/
def GetCompactBackupOwnerRef (name uid : String) : OwnerReference :=
  mkOwnerRef CompactBackupControllerKind name uid

/-- Embeds `GetRestoreOwnerRef`. -/
def GetRestoreOwnerRef (name uid : String) : OwnerReference :=
  mkOwnerRef RestoreControllerKind name uid

/-- Embeds `GetBackupScheduleOwnerRef`. -/
def GetBackupScheduleOwnerRef (name uid : String) : OwnerReference :=
  mkOwnerRef backupScheduleControllerKind name uid

/-- Embeds `GetFedVolumeBackupScheduleOwnerRef`. -/
def GetFedVolumeBackupScheduleOwnerRef (name uid : String) : OwnerReference :=
  mkOwnerRef FedVolumeBackupScheduleControllerKind name uid

/-- Embeds `GetTiDBMonitorOwnerRef`. -/
def GetTiDBMonitorOwnerRef (name uid : String) : OwnerReference :=
  mkOwnerRef tidbMonitorControllerKind name uid

/-- Embeds `GetTiDBNGMonitoringOwnerRef`. -/
def GetTiDBNGMonitoringOwnerRef (name uid : String) : OwnerReference :=
  mkOwnerRef tidbNGMonitoringKind name uid

/-- Embeds `GetTiDBDashboardOwnerRef`. -/
def GetTiDBDashboardOwnerRef (name uid : String) : OwnerReference :=
  mkOwnerRef tidbDashboardKind name uid

/-- Error outcome of `InferObjectKind`: the scheme's not-registered error
propagated from `ObjectKinds`, or the "ambiguous GVK" error produced by
`InferObjectKind` itself. -/
inductive InferErr where
  | notRegistered (t : String)
  | ambiguous
deriving DecidableEq, Repr

/-- Embeds `runtime.Scheme.ObjectKinds` over the registered type catalog: the
catalog is the list of `(in-memory type, gvk)` registrations accumulated by
`AddKnownTypes`; lookup fails with a not-registered error exactly when the
object's type has no registration. -/
def objectKinds (reg : List (String × GroupVersionKind)) (t : String) :
    Except InferErr (List GroupVersionKind) :=
  let gvks := (reg.filter (fun p => p.1 = t)).map (fun p => p.2)
  if gvks.isEmpty then .error (.notRegistered t) else .ok gvks

/-- Embeds `InferObjectKind`: propagate the scheme error; fail with the ambiguous
error when the scheme reports a number of kinds different from one; otherwise
return the single kind. -/
def InferObjectKind (reg : List (String × GroupVersionKind)) (t : String) :
    Except InferErr GroupVersionKind :=
  match objectKinds reg t with
  | .error e => .error e
  | .ok gvks =>
    match gvks with
    | [g] => .ok g
    | _ => .error .ambiguous

/-- Lookup failure inside `WatchForController`: a not-found error (skip
silently) or any other lookup error (skip and surface to the error handler). -/
inductive LookupErr where
  | notFound
  | other (s : String)
deriving DecidableEq, Repr

/-- The metadata of a watched object that `WatchForController`'s handler
reads: namespace, name, labels and owner references. -/
structure WatchedObj where
  ns : String
  name : String
  labels : List (String × String)
  ownerRefs : List OwnerReference
deriving DecidableEq, Repr

/-- The controller object returned by the `GetControllerFn` lookup: its
namespace/name and its group-version-kind as reported by
`GetObjectKind().GroupVersionKind()`. -/
structure ControllerObj where
  ns : String
  name : String
  kind : String
  group : String
deriving DecidableEq, Repr

/-- Embeds `metav1.GetControllerOf`: the first owner reference whose `Controller`
pointer is non-nil and points at `true`. -/
def getControllerOf (refs : List OwnerReference) : Option OwnerReference :=
  refs.find? (fun r => r.controller == some true)

/-- Embeds `strings.Index(gv, "/")` followed by the two slices `gv[:i]` and
`gv[i+1:]`: everything before the first slash and everything after it. -/
def splitAtSlash : List Char → List Char × List Char
  | [] => ([], [])
  | c :: rest =>
    if c = '/' then ([], rest)
    else ((c :: (splitAtSlash rest).1), (splitAtSlash rest).2)

/-- Embeds `schema.ParseGroupVersion`: empty or "/" parses to the empty group
version; no slash means version only; exactly one slash splits into group and
version at that slash; more slashes fail. -/
def parseGroupVersion (gv : String) : Except String (String × String) :=
  if gv = "" || gv = "/" then .ok ("", "")
  else
    match (gv.toList.filter (fun c => c = '/')).length with
    | 0 => .ok ("", gv)
    | 1 => .ok (⟨(splitAtSlash gv.toList).1⟩, ⟨(splitAtSlash gv.toList).2⟩)
    | _ => .error gv

/-- Embeds `cache.MetaNamespaceKeyFunc`: `name` for cluster-scoped objects,
`namespace "/" name` otherwise. -/
def metaNamespaceKey (ns name : String) : String :=
  if ns = "" then name else ns ++ "/" ++ name

/-- Modelled from the spec: `util.IsSubMapOf` (`pkg/util`, not among the
sampled sources) — the label filter must be a subset of the object's label
map: every key/value pair of the filter appears in the object's labels. -/
def isSubMapOf (m l : List (String × String)) : Bool :=
  m.all (fun kv => (l.find? (fun kv2 => kv2.1 = kv.1)).any (fun kv2 => kv2.2 = kv.2))

/-- The label-filter gate at the top of `WatchForController`'s handler: a nil
filter map passes everything, otherwise the filter must be a sub-map of the
object's labels. -/
def labelPass (m : Option (List (String × String))) (l : List (String × String)) : Bool :=
  match m with
  | some mm => isSubMapOf mm l
  | none => true

/-- The enqueue handler installed by `WatchForController` for add, update and
delete notifications: apply the label filter, extract the controller owner
reference, parse its group/version, look up the controller object, verify
kind and group, and return the controller's namespace/name key to enqueue
(`none` = nothing enqueued). -/
def watchForControllerEnqueue (fn : String → String → Except LookupErr ControllerObj)
    (m : Option (List (String × String))) (obj : WatchedObj) : Option String :=
  if labelPass m obj.labels then
    match getControllerOf obj.ownerRefs with
    | none => none
    | some ref =>
      match parseGroupVersion ref.apiVersion with
      | .error _ => none
      | .ok gv =>
        match fn obj.ns ref.name with
        | .error _ => none
        | .ok ctrl =>
          if ref.kind = ctrl.kind && gv.1 = ctrl.group then
            some (metaNamespaceKey ctrl.ns ctrl.name)
          else none
  else none

/-! Helper lemmas about the failover loops -/

lemma findHealthyPeer_none (health : PDClientArgs → Bool) (tc : TidbCluster) :
    ∀ l : List PDMember, (∀ m ∈ l, health (pdPeerClientArgs tc m) = false) →
      findHealthyPeer health tc l = none := by
  intro l h
  induction l with
  | nil => rfl
  | cons m rest ih =>
    have hm := h m (List.mem_cons_self m rest)
    simp only [findHealthyPeer, hm, Bool.false_eq_true, if_false]
    exact ih fun x hx => h x (List.mem_cons_of_mem m hx)

lemma findHealthyPeer_mem (health : PDClientArgs → Bool) (tc : TidbCluster) :
    ∀ (l : List PDMember) (c : PDClientArgs), findHealthyPeer health tc l = some c →
      ∃ m, m ∈ l ∧ c = pdPeerClientArgs tc m := by
  intro l
  induction l with
  | nil => intro c h; simp [findHealthyPeer] at h
  | cons a rest ih =>
    intro c h
    by_cases ha : health (pdPeerClientArgs tc a) = true
    · simp only [findHealthyPeer, ha, if_true, Option.some.injEq] at h
      exact ⟨a, List.mem_cons_self a rest, h.symm⟩
    · simp only [findHealthyPeer, ha, if_false] at h
      obtain ⟨m, hm, hc⟩ := ih c h
      exact ⟨m, List.mem_cons_of_mem a hm, hc⟩

lemma findHealthyPeer_first (health : PDClientArgs → Bool) (tc : TidbCluster)
    (mk : PDMember) (post : List PDMember) :
    ∀ pre : List PDMember, (∀ m ∈ pre, health (pdPeerClientArgs tc m) = false) →
      health (pdPeerClientArgs tc mk) = true →
      findHealthyPeer health tc (pre ++ mk :: post) = some (pdPeerClientArgs tc mk) ∧
      probedPeers health tc (pre ++ mk :: post) = pre ++ [mk] := by
  intro pre hpre hmk
  induction pre with
  | nil => simp [findHealthyPeer, probedPeers, hmk]
  | cons a rest ih =>
    have ha := hpre a (List.mem_cons_self a rest)
    have hrest := ih fun x hx => hpre x (List.mem_cons_of_mem a hx)
    constructor
    · simp only [List.cons_append, findHealthyPeer, ha, Bool.false_eq_true, if_false]
      exact hrest.1
    · simp only [List.cons_append, probedPeers, ha, Bool.false_eq_true, if_false]
      exact congrArg (List.cons a) hrest.2

lemma GetPDClient_cases (health : PDClientArgs → Bool) (tc : TidbCluster) :
    GetPDClient health tc = getPDClientFromService tc ∨
      ∃ m, m ∈ tc.peerMembers ∧ GetPDClient health tc = pdPeerClientArgs tc m := by
  by_cases he : tc.peerMembers.isEmpty = true
  · left; simp [GetPDClient, he]
  · by_cases hh : health (getPDClientFromService tc) = true
    · left; simp [GetPDClient, he, hh]
    · cases hf : findHealthyPeer health tc tc.peerMembers with
      | none => left; simp [GetPDClient, he, hh, hf]
      | some c =>
        obtain ⟨m, hm, hc⟩ := findHealthyPeer_mem health tc tc.peerMembers c hf
        right
        exact ⟨m, hm, by simp [GetPDClient, he, hh, hf, hc]⟩

lemma findHealthyPDMSMember_none_iff (health : PDMSClientArgs → Bool)
    (tc : TidbCluster) (sn : String) :
    ∀ l : List String, findHealthyPDMSMember health tc sn l = none ↔
      ∀ m ∈ l, health (pdmsPeerClientArgs tc sn m) = false := by
  intro l
  induction l with
  | nil => simp [findHealthyPDMSMember]
  | cons a rest ih =>
    by_cases ha : health (pdmsPeerClientArgs tc sn a) = true
    · simp [findHealthyPDMSMember, ha]
    · have ha2 : health (pdmsPeerClientArgs tc sn a) = false := Bool.eq_false_iff.mpr ha
      simp only [findHealthyPDMSMember, ha2, Bool.false_eq_true, if_false]
      rw [ih]
      constructor
      · intro h m hm
        rcases List.mem_cons.mp hm with hm | hm
        · subst hm; exact ha2
        · exact h m hm
      · intro h m hm
        exact h m (List.mem_cons_of_mem a hm)

lemma findHealthyPDMSPeer_none_iff (health : PDMSClientArgs → Bool)
    (tc : TidbCluster) (sn : String) :
    ∀ l : List PDMSStatus, findHealthyPDMSPeer health tc sn l = none ↔
      ∀ s ∈ l, s.name = sn →
        ∀ m ∈ s.members, health (pdmsPeerClientArgs tc sn m) = false := by
  intro l
  induction l with
  | nil => simp [findHealthyPDMSPeer]
  | cons s rest ih =>
    simp only [findHealthyPDMSPeer]
    by_cases hn : s.name = sn
    · rw [if_pos hn]
      cases hm : findHealthyPDMSMember health tc sn s.members with
      | some c =>
        constructor
        · intro h; exact Option.noConfusion h
        · intro h
          have hnone := (findHealthyPDMSMember_none_iff health tc sn s.members).mpr
            (h s (List.mem_cons_self s rest) hn)
          rw [hnone] at hm
          exact Option.noConfusion hm
      | none =>
        rw [ih]
        have hmem := (findHealthyPDMSMember_none_iff health tc sn s.members).mp hm
        constructor
        · intro h x hx hxn
          rcases List.mem_cons.mp hx with hx | hx
          · subst hx; exact hmem
          · exact h x hx hxn
        · intro h x hx hxn
          exact h x (List.mem_cons_of_mem s hx) hxn
    · rw [if_neg hn, ih]
      constructor
      · intro h x hx hxn
        rcases List.mem_cons.mp hx with hx | hx
        · subst hx; exact absurd hxn hn
        · exact h x hx hxn
      · intro h x hx hxn
        exact h x (List.mem_cons_of_mem s hx) hxn

/-! Claim theorems for the client resolver -/

/-- Claim C1: for a descriptor with a non-empty peer-member list, if the
service-level health probe fails and every peer-pinned probe fails as well,
`GetPDClient` still returns the service-level client handle (fail-open): the
result is total, never an error and never nil. -/
theorem GetPDClient_all_probes_fail_returns_service_client
    (health : PDClientArgs → Bool) (tc : TidbCluster)
    (_hne : tc.peerMembers ≠ [])
    (hsvc : health (getPDClientFromService tc) = false)
    (hall : ∀ m ∈ tc.peerMembers, health (pdPeerClientArgs tc m) = false) :
    GetPDClient health tc = getPDClientFromService tc := by
  have hfind := findHealthyPeer_none health tc tc.peerMembers hall
  simp [GetPDClient, hsvc, hfind]

/-- Concrete instance of the fail-open theorem: one peer member, all probes
failing. -/
theorem GetPDClient_all_probes_fail_witness :
    GetPDClient (fun _ => false)
        ⟨"ns1", "demo", none, "", false, false, false, [⟨"pd-0", "u0"⟩], []⟩ =
      getPDClientFromService
        ⟨"ns1", "demo", none, "", false, false, false, [⟨"pd-0", "u0"⟩], []⟩ :=
  GetPDClient_all_probes_fail_returns_service_client (fun _ => false)
    ⟨"ns1", "demo", none, "", false, false, false, [⟨"pd-0", "u0"⟩], []⟩
    (by decide) rfl (by decide)

/-- Claim C3: when the service-level probe fails and the peer-member list is
`pre ++ mk :: post` with every entry of `pre` unhealthy, `mk` healthy and
every entry of `post` unhealthy (exactly one healthy entry, at position
`pre.length`), `GetPDClient` returns the client pinned to `mk`'s ClientURL
and name, and the loop probed exactly the entries of `pre`, once each, in
stored order, then `mk`. -/
theorem GetPDClient_failover_first_healthy
    (health : PDClientArgs → Bool) (tc : TidbCluster)
    (pre : List PDMember) (mk : PDMember) (post : List PDMember)
    (hmem : tc.peerMembers = pre ++ mk :: post)
    (hsvc : health (getPDClientFromService tc) = false)
    (hpre : ∀ m ∈ pre, health (pdPeerClientArgs tc m) = false)
    (hmk : health (pdPeerClientArgs tc mk) = true)
    (_hpost : ∀ m ∈ post, health (pdPeerClientArgs tc m) = false) :
    GetPDClient health tc = pdPeerClientArgs tc mk ∧
    (GetPDClient health tc).specifyURL = some mk.clientURL ∧
    (GetPDClient health tc).specifyName = some mk.name ∧
    probedPeers health tc tc.peerMembers = pre ++ [mk] := by
  obtain ⟨hfind, hprobe⟩ := findHealthyPeer_first health tc mk post pre hpre hmk
  have hres : GetPDClient health tc = pdPeerClientArgs tc mk := by
    rw [GetPDClient, hmem]
    simp [hsvc, hfind]
  refine ⟨hres, ?_, ?_, ?_⟩
  · rw [hres]; rfl
  · rw [hres]; rfl
  · rw [hmem]; exact hprobe

/-- Concrete instance of the failover theorem: service unhealthy, first peer
unhealthy, second peer healthy. -/
theorem GetPDClient_failover_first_healthy_witness :
    GetPDClient (fun c => c.specifyURL == some "u2")
        ⟨"ns1", "demo", none, "", false, false, false,
          [⟨"n1", "u1"⟩, ⟨"n2", "u2"⟩], []⟩ =
      pdPeerClientArgs
        ⟨"ns1", "demo", none, "", false, false, false,
          [⟨"n1", "u1"⟩, ⟨"n2", "u2"⟩], []⟩ ⟨"n2", "u2"⟩ ∧
    probedPeers (fun c => c.specifyURL == some "u2")
        ⟨"ns1", "demo", none, "", false, false, false,
          [⟨"n1", "u1"⟩, ⟨"n2", "u2"⟩], []⟩
        [⟨"n1", "u1"⟩, ⟨"n2", "u2"⟩] = [⟨"n1", "u1"⟩, ⟨"n2", "u2"⟩] := by
  have h := GetPDClient_failover_first_healthy (fun c => c.specifyURL == some "u2")
    ⟨"ns1", "demo", none, "", false, false, false, [⟨"n1", "u1"⟩, ⟨"n2", "u2"⟩], []⟩
    [⟨"n1", "u1"⟩] ⟨"n2", "u2"⟩ [] rfl (by decide) (by decide) (by decide) (by decide)
  exact ⟨h.1, h.2.2.2⟩

/-- Claim C9: peer-pinned clients built during failover always use the local
cluster's namespace, name and TLS flag, and the resolver returns either the
service-level handle or one of those pinned handles; for a heterogeneous
cluster without local PD, only the service-level key is built from the parent
cluster's namespace/name (with the TLS certificate source still pointing at
the local cluster). -/
theorem GetPDClient_failover_uses_local_identity
    (health : PDClientArgs → Bool) (tc : TidbCluster)
    (hhet : tc.heterogeneous = true) (hwo : tc.withoutLocalPD = true) :
    (∀ m ∈ tc.peerMembers,
      (pdPeerClientArgs tc m).ns = tc.ns ∧
      (pdPeerClientArgs tc m).name = tc.name ∧
      (pdPeerClientArgs tc m).tls = tc.tlsEnabled) ∧
    (GetPDClient health tc = getPDClientFromService tc ∨
      ∃ m, m ∈ tc.peerMembers ∧ GetPDClient health tc = pdPeerClientArgs tc m) ∧
    (getPDClientFromService tc).ns = (tc.clusterRef.getD ⟨"", "", ""⟩).ns ∧
    (getPDClientFromService tc).name = (tc.clusterRef.getD ⟨"", "", ""⟩).name ∧
    (getPDClientFromService tc).certNs = some tc.ns ∧
    (getPDClientFromService tc).certName = some tc.name := by
  have hsvc : getPDClientFromService tc =
      { ns := (tc.clusterRef.getD ⟨"", "", ""⟩).ns,
        name := (tc.clusterRef.getD ⟨"", "", ""⟩).name,
        tls := tc.tlsEnabled,
        certNs := some tc.ns, certName := some tc.name,
        clusterDomain := some (tc.clusterRef.getD ⟨"", "", ""⟩).clusterDomain,
        headless := some tc.acrossK8s,
        specifyURL := none, specifyName := none } := by
    simp [getPDClientFromService, hhet, hwo]
  exact ⟨fun m _ => ⟨rfl, rfl, rfl⟩, GetPDClient_cases health tc,
    by rw [hsvc], by rw [hsvc], by rw [hsvc], by rw [hsvc]⟩

/-- Concrete instance of the local-identity theorem for a heterogeneous
cluster without local PD. -/
theorem GetPDClient_failover_uses_local_identity_witness :
    (getPDClientFromService
        ⟨"local-ns", "local", some ⟨"parent-ns", "parent", "pd.local"⟩, "",
          false, true, true, [⟨"n1", "u1"⟩], []⟩).ns = "parent-ns" ∧
    (getPDClientFromService
        ⟨"local-ns", "local", some ⟨"parent-ns", "parent", "pd.local"⟩, "",
          false, true, true, [⟨"n1", "u1"⟩], []⟩).certNs = some "local-ns" := by
  have h := GetPDClient_failover_uses_local_identity (fun _ => false)
    ⟨"local-ns", "local", some ⟨"parent-ns", "parent", "pd.local"⟩, "",
      false, true, true, [⟨"n1", "u1"⟩], []⟩ rfl rfl
  exact ⟨h.2.2.1, h.2.2.2.2.1⟩

/-- Claim C5 (amended): `GetPDMSClient` has no zero-member early return — it
always probes the service-level client first and returns it when healthy;
otherwise it scans the named sub-service's members and returns `none`
(Go nil) exactly when the service-level probe and every member probe of the
named sub-service failed. -/
theorem GetPDMSClient_none_iff_all_probes_fail
    (health : PDMSClientArgs → Bool) (tc : TidbCluster) (serviceName : String) :
    GetPDMSClient health tc serviceName = none ↔
      health (getPDMSClientFromService tc serviceName) = false ∧
      ∀ s ∈ tc.pdms, s.name = serviceName →
        ∀ m ∈ s.members, health (pdmsPeerClientArgs tc serviceName m) = false := by
  cases hh : health (getPDMSClientFromService tc serviceName) with
  | true => simp [GetPDMSClient, hh]
  | false =>
    simp only [GetPDMSClient, hh, Bool.false_eq_true, if_false, true_and]
    exact findHealthyPDMSPeer_none_iff health tc serviceName tc.pdms

/-- Counterexample to claim C5 as stated: a descriptor whose named
sub-service has zero known member endpoints and whose service-level probe
fails.  `GetPDMSClient` issues the probe and returns `none` — not the
service-level handle unconditionally. -/
theorem GetPDMSClient_zero_members_counterexample :
    (⟨"ns1", "demo", none, "", false, false, false, [], []⟩ : TidbCluster).pdms = [] ∧
    GetPDMSClient (fun _ => false)
        ⟨"ns1", "demo", none, "", false, false, false, [], []⟩ "tso" = none ∧
    GetPDMSClient (fun _ => false)
        ⟨"ns1", "demo", none, "", false, false, false, [], []⟩ "tso" ≠
      some (getPDMSClientFromService
        ⟨"ns1", "demo", none, "", false, false, false, [], []⟩ "tso") :=
  ⟨rfl, rfl, by decide⟩

/-! Claim theorems for the guaranteed update engine -/

lemma guLoop_succ {α : Type} [DecidableEq α] (env : StoreEnv α)
    (mutate : α → Except GoErr α) (fuel i a u : Nat) (le : Option GoErr) :
    guLoop env mutate (fuel + 1) i a u le =
      match guAttempt env mutate i with
      | (none, w) => ⟨none, a + 1, u + w⟩
      | (some e, w) =>
        if isConflict e then guLoop env mutate fuel (i + 1) (a + 1) (u + w) (some e)
        else ⟨some e, a + 1, u + w⟩ := rfl

/-- Claim C2: when the mutation applied to the freshly fetched value yields a
record semantically equal to the pre-mutation snapshot, `GuaranteedUpdate`
returns success after a single attempt without ever invoking the store's
update operation. -/
theorem GuaranteedUpdate_noop_skips_update {α : Type} [DecidableEq α]
    (env : StoreEnv α) (mutate : α → Except GoErr α) (v : α)
    (hget : env.getR 0 = .ok v) (hmut : mutate v = .ok v) :
    GuaranteedUpdate env mutate = ⟨none, 1, 0⟩ := by
  have hatt : guAttempt env mutate 0 = (none, 0) := by
    simp [guAttempt, hget, hmut]
  show guLoop env mutate (4 + 1) 0 0 0 none = ⟨none, 1, 0⟩
  rw [guLoop_succ, hatt]

/-- Concrete instance of the no-op theorem: identity mutation over a constant
store. -/
theorem GuaranteedUpdate_noop_skips_update_witness :
    GuaranteedUpdate ⟨fun _ => Except.ok (7 : Nat), fun _ _ => Except.ok ()⟩
        (fun x => Except.ok x) = ⟨none, 1, 0⟩ :=
  GuaranteedUpdate_noop_skips_update
    ⟨fun _ => Except.ok (7 : Nat), fun _ _ => Except.ok ()⟩ (fun x => Except.ok x)
    7 rfl rfl

/-- Claim C4 (amended): when the mutation function fails on some attempt, no
persistence write is issued on that attempt; if the error is not classified
as an optimistic-concurrency conflict the call aborts at that attempt with
that error; a conflict-classified mutation error is instead retried by the
conflict-aware retry policy like an update conflict. -/
theorem GuaranteedUpdate_mutate_error_aborts_unless_conflict {α : Type}
    [DecidableEq α] (env : StoreEnv α) (mutate : α → Except GoErr α)
    (fuel i a u : Nat) (le : Option GoErr) (v : α) (e : GoErr)
    (hget : env.getR i = .ok v) (hmut : mutate v = .error e) :
    (isConflict e = false →
      guLoop env mutate (fuel + 1) i a u le = ⟨some e, a + 1, u⟩) ∧
    (isConflict e = true →
      guLoop env mutate (fuel + 1) i a u le =
        guLoop env mutate fuel (i + 1) (a + 1) u (some e)) := by
  have hatt : guAttempt env mutate i = (some e, 0) := by
    simp [guAttempt, hget, hmut]
  constructor <;> intro hc <;> rw [guLoop_succ, hatt] <;> simp [hc]

/-- Concrete instance of the amended mutation-error theorem: a non-conflict
mutation error aborts the very first attempt with no write. -/
theorem GuaranteedUpdate_mutate_error_aborts_witness :
    GuaranteedUpdate ⟨fun _ => Except.ok (0 : Nat), fun _ _ => Except.ok ()⟩
        (fun _ => Except.error (GoErr.other "boom")) =
      ⟨some (GoErr.other "boom"), 1, 0⟩ :=
  (GuaranteedUpdate_mutate_error_aborts_unless_conflict
    ⟨fun _ => Except.ok (0 : Nat), fun _ _ => Except.ok ()⟩
    (fun _ => Except.error (GoErr.other "boom")) 4 0 0 0 none 0
    (GoErr.other "boom") rfl rfl).1 rfl

/-- Counterexample to claim C4 as stated ("no further retry attempt is made,
whatever the error value is"): a mutation that always fails with a
conflict-classified error is retried through the whole five-step budget of
`retry.DefaultRetry` — five attempts, not one — before that error is
returned. -/
theorem GuaranteedUpdate_conflict_mutate_error_retries :
    GuaranteedUpdate ⟨fun _ => Except.ok (0 : Nat), fun _ _ => Except.ok ()⟩
        (fun _ => Except.error (GoErr.conflict "stale")) =
      ⟨some (GoErr.conflict "stale"), 5, 0⟩ ∧
    (GuaranteedUpdate ⟨fun _ => Except.ok (0 : Nat), fun _ _ => Except.ok ()⟩
        (fun _ => Except.error (GoErr.conflict "stale"))).attempts ≠ 1 :=
  ⟨rfl, by decide⟩

/-! Claim theorems for the typed control errors -/

/-- Claim C10: `IsRequeueError` recognizes a `RequeueError` anywhere along
the wrap chain (it unwraps), while `IsIgnoreError` matches only a value whose
dynamic type is exactly `*IgnoreError`; in particular any wrapping error —
even one whose chain contains an `IgnoreError` — is rejected by
`IsIgnoreError`. -/
theorem IsIgnoreError_exact_type_IsRequeueError_unwraps
    (e : GoError) (msg : String) (inner : GoError) :
    IsRequeueError e = containsRequeueError e ∧
    (IsIgnoreError e = true ↔ ∃ s, e = GoError.ignoreErr s) ∧
    (containsIgnoreError inner = true →
      IsIgnoreError (GoError.wrapped msg inner) = false) := by
  refine ⟨?_, ?_, fun _ => rfl⟩
  · induction e with
    | requeueErr s => rfl
    | ignoreErr s => rfl
    | wrapped m inner2 ih =>
      simp only [IsRequeueError, containsRequeueError]
      exact ih
    | basic s => rfl
  · cases e <;> simp [IsIgnoreError]

/-- Concrete instance: an error wrapping an `IgnoreError` is not recognized
by `IsIgnoreError`. -/
theorem IsIgnoreError_wrapped_witness :
    IsIgnoreError (GoError.wrapped "ctx" (GoError.ignoreErr "done")) = false :=
  (IsIgnoreError_exact_type_IsRequeueError_unwraps
    (GoError.basic "x") "ctx" (GoError.ignoreErr "done")).2.2 rfl

/-! Claim theorems for the ownership model -/

/-- Claim C8: every owner-reference constructor of this system sets both the
controller flag and the blockOwnerDeletion flag to true, for every input
object. -/
theorem owner_refs_always_controller_true (name uid : String) :
    (GetOwnerRef name uid).controller = some true ∧
    (GetOwnerRef name uid).blockOwnerDeletion = some true ∧
    (GetDMOwnerRef name uid).controller = some true ∧
    (GetDMOwnerRef name uid).blockOwnerDeletion = some true ∧
    (GetBackupOwnerRef name uid).controller = some true ∧
    (GetBackupOwnerRef name uid).blockOwnerDeletion = some true ∧
    (GetCompactBackupOwnerRef name uid).controller = some true ∧
    (GetCompactBackupOwnerRef name uid).blockOwnerDeletion = some true ∧
    (GetRestoreOwnerRef name uid).controller = some true ∧
    (GetRestoreOwnerRef name uid).blockOwnerDeletion = some true ∧
    (GetBackupScheduleOwnerRef name uid).controller = some true ∧
    (GetBackupScheduleOwnerRef name uid).blockOwnerDeletion = some true ∧
    (GetFedVolumeBackupScheduleOwnerRef name uid).controller = some true ∧
    (GetFedVolumeBackupScheduleOwnerRef name uid).blockOwnerDeletion = some true ∧
    (GetTiDBMonitorOwnerRef name uid).controller = some true ∧
    (GetTiDBMonitorOwnerRef name uid).blockOwnerDeletion = some true ∧
    (GetTiDBNGMonitoringOwnerRef name uid).controller = some true ∧
    (GetTiDBNGMonitoringOwnerRef name uid).blockOwnerDeletion = some true ∧
    (GetTiDBDashboardOwnerRef name uid).controller = some true ∧
    (GetTiDBDashboardOwnerRef name uid).blockOwnerDeletion = some true :=
  ⟨rfl, rfl, rfl, rfl, rfl, rfl, rfl, rfl, rfl, rfl,
   rfl, rfl, rfl, rfl, rfl, rfl, rfl, rfl, rfl, rfl⟩

/-! Claim theorems for kind inference -/

/-- Claim C7: `InferObjectKind` returns the single matching registered kind
when exactly one matches, fails with the scheme's unregistered error when
none match, and fails with the ambiguous error when more than one match — it
never silently picks a candidate. -/
theorem InferObjectKind_classification (reg : List (String × GroupVersionKind))
    (t : String) :
    (((reg.filter (fun p => p.1 = t)).map (fun p => p.2)).length = 0 →
      InferObjectKind reg t = .error (.notRegistered t)) ∧
    (∀ g, (reg.filter (fun p => p.1 = t)).map (fun p => p.2) = [g] →
      InferObjectKind reg t = .ok g) ∧
    (1 < ((reg.filter (fun p => p.1 = t)).map (fun p => p.2)).length →
      InferObjectKind reg t = .error .ambiguous) := by
  refine ⟨?_, ?_, ?_⟩
  · intro h
    have hnil : (reg.filter (fun p => p.1 = t)).map (fun p => p.2) = [] :=
      List.length_eq_zero.mp h
    simp [InferObjectKind, objectKinds, hnil]
  · intro g hg
    simp [InferObjectKind, objectKinds, hg]
  · intro h
    rcases hM : (reg.filter (fun p => p.1 = t)).map (fun p => p.2) with _ | ⟨a, _ | ⟨b, rest⟩⟩
    · rw [hM] at h; simp at h
    · rw [hM] at h; simp at h
    · simp [InferObjectKind, objectKinds, hM]

/-- Concrete instance: two registrations for the same in-memory type give the
ambiguous error. -/
theorem InferObjectKind_ambiguous_witness :
    InferObjectKind
        [("tcType", pingcapKind "TidbCluster"), ("tcType", pingcapKind "DMCluster")]
        "tcType" = .error .ambiguous :=
  (InferObjectKind_classification
    [("tcType", pingcapKind "TidbCluster"), ("tcType", pingcapKind "DMCluster")]
    "tcType").2.2 (by decide)

/-! Claim theorems for the event router -/

lemma wfc_label_skip (fn : String → String → Except LookupErr ControllerObj)
    (m : Option (List (String × String))) (obj : WatchedObj)
    (hl : labelPass m obj.labels = false) :
    watchForControllerEnqueue fn m obj = none := by
  simp [watchForControllerEnqueue, hl]

lemma wfc_no_controller_ref (fn : String → String → Except LookupErr ControllerObj)
    (m : Option (List (String × String))) (obj : WatchedObj)
    (hc : getControllerOf obj.ownerRefs = none) :
    watchForControllerEnqueue fn m obj = none := by
  by_cases hl : labelPass m obj.labels = true <;>
    simp [watchForControllerEnqueue, hl, hc]

lemma wfc_parse_fail (fn : String → String → Except LookupErr ControllerObj)
    (m : Option (List (String × String))) (obj : WatchedObj)
    (ref : OwnerReference) (s : String)
    (hc : getControllerOf obj.ownerRefs = some ref)
    (hp : parseGroupVersion ref.apiVersion = .error s) :
    watchForControllerEnqueue fn m obj = none := by
  by_cases hl : labelPass m obj.labels = true <;>
    simp [watchForControllerEnqueue, hl, hc, hp]

lemma wfc_lookup_fail (fn : String → String → Except LookupErr ControllerObj)
    (m : Option (List (String × String))) (obj : WatchedObj)
    (ref : OwnerReference) (gv : String × String) (le : LookupErr)
    (hc : getControllerOf obj.ownerRefs = some ref)
    (hp : parseGroupVersion ref.apiVersion = .ok gv)
    (hf : fn obj.ns ref.name = .error le) :
    watchForControllerEnqueue fn m obj = none := by
  by_cases hl : labelPass m obj.labels = true <;>
    simp [watchForControllerEnqueue, hl, hc, hp, hf]

lemma wfc_match_enqueues (fn : String → String → Except LookupErr ControllerObj)
    (m : Option (List (String × String))) (obj : WatchedObj)
    (ref : OwnerReference) (gv : String × String) (ctrl : ControllerObj)
    (hl : labelPass m obj.labels = true)
    (hc : getControllerOf obj.ownerRefs = some ref)
    (hp : parseGroupVersion ref.apiVersion = .ok gv)
    (hf : fn obj.ns ref.name = .ok ctrl)
    (hkind : ref.kind = ctrl.kind) (hgroup : gv.1 = ctrl.group) :
    watchForControllerEnqueue fn m obj =
      some (metaNamespaceKey ctrl.ns ctrl.name) := by
  simp [watchForControllerEnqueue, hl, hc, hp, hf, hkind, hgroup]

lemma wfc_mismatch_skips (fn : String → String → Except LookupErr ControllerObj)
    (m : Option (List (String × String))) (obj : WatchedObj)
    (ref : OwnerReference) (gv : String × String) (ctrl : ControllerObj)
    (hc : getControllerOf obj.ownerRefs = some ref)
    (hp : parseGroupVersion ref.apiVersion = .ok gv)
    (hf : fn obj.ns ref.name = .ok ctrl)
    (hmis : ref.kind ≠ ctrl.kind ∨ gv.1 ≠ ctrl.group) :
    watchForControllerEnqueue fn m obj = none := by
  by_cases hl : labelPass m obj.labels = true
  · rcases hmis with hmis | hmis <;>
      simp [watchForControllerEnqueue, hl, hc, hp, hf, hmis]
  · exact wfc_label_skip fn m obj (Bool.eq_false_iff.mpr hl)

/-- Claim C6: `WatchForController`'s handler enqueues a key only when the
object carries a controller owner reference, the owner lookup succeeds and
both the kind and the API group of the looked-up controller object equal
those recorded in the reference — and the enqueued key is exactly the
controller object's namespace/name key; with no controller reference, or
with a kind or group mismatch, nothing is enqueued. -/
theorem WatchForController_enqueue_conditions
    (fn : String → String → Except LookupErr ControllerObj)
    (m : Option (List (String × String))) (obj : WatchedObj) :
    (∀ k, watchForControllerEnqueue fn m obj = some k →
      ∃ ref gv ctrl, getControllerOf obj.ownerRefs = some ref ∧
        parseGroupVersion ref.apiVersion = .ok gv ∧
        fn obj.ns ref.name = .ok ctrl ∧
        ref.kind = ctrl.kind ∧ gv.1 = ctrl.group ∧
        k = metaNamespaceKey ctrl.ns ctrl.name) ∧
    (getControllerOf obj.ownerRefs = none →
      watchForControllerEnqueue fn m obj = none) ∧
    (∀ ref gv ctrl, getControllerOf obj.ownerRefs = some ref →
      parseGroupVersion ref.apiVersion = .ok gv →
      fn obj.ns ref.name = .ok ctrl →
      (ref.kind ≠ ctrl.kind ∨ gv.1 ≠ ctrl.group) →
      watchForControllerEnqueue fn m obj = none) := by
  refine ⟨?_, wfc_no_controller_ref fn m obj, ?_⟩
  · intro k hk
    by_cases hl : labelPass m obj.labels = true
    · cases hc : getControllerOf obj.ownerRefs with
      | none =>
        rw [wfc_no_controller_ref fn m obj hc] at hk
        exact Option.noConfusion hk
      | some ref =>
        cases hp : parseGroupVersion ref.apiVersion with
        | error s =>
          rw [wfc_parse_fail fn m obj ref s hc hp] at hk
          exact Option.noConfusion hk
        | ok gv =>
          cases hf : fn obj.ns ref.name with
          | error le =>
            rw [wfc_lookup_fail fn m obj ref gv le hc hp hf] at hk
            exact Option.noConfusion hk
          | ok ctrl =>
            by_cases hkind : ref.kind = ctrl.kind
            · by_cases hgroup : gv.1 = ctrl.group
              · rw [wfc_match_enqueues fn m obj ref gv ctrl hl hc hp hf hkind hgroup] at hk
                exact ⟨ref, gv, ctrl, rfl, hp, hf, hkind, hgroup,
                  ((Option.some.injEq _ _).mp hk).symm⟩
              · rw [wfc_mismatch_skips fn m obj ref gv ctrl hc hp hf (Or.inr hgroup)] at hk
                exact Option.noConfusion hk
            · rw [wfc_mismatch_skips fn m obj ref gv ctrl hc hp hf (Or.inl hkind)] at hk
              exact Option.noConfusion hk
    · rw [wfc_label_skip fn m obj (Bool.eq_false_iff.mpr hl)] at hk
      exact Option.noConfusion hk
  · intro ref gv ctrl hc hp hf hmis
    exact wfc_mismatch_skips fn m obj ref gv ctrl hc hp hf hmis

/-- Concrete instance: a controller owner reference whose recorded kind
differs from the looked-up object's kind enqueues nothing. -/
theorem WatchForController_kind_mismatch_witness :
    watchForControllerEnqueue
        (fun _ _ => Except.ok ⟨"ns1", "demo", "Backup", "g"⟩) none
        ⟨"ns1", "pod-x", [], [⟨"g/v1", "TidbCluster", "demo", "uid1", some true, some true⟩]⟩ =
      none :=
  (WatchForController_enqueue_conditions
    (fun _ _ => Except.ok ⟨"ns1", "demo", "Backup", "g"⟩) none
    ⟨"ns1", "pod-x", [], [⟨"g/v1", "TidbCluster", "demo", "uid1", some true, some true⟩]⟩).2.2
    ⟨"g/v1", "TidbCluster", "demo", "uid1", some true, some true⟩ ("g", "v1")
    ⟨"ns1", "demo", "Backup", "g"⟩ rfl rfl rfl (Or.inl (by decide))

end TidbOperator
